import Mathlib

/-!
Shallow embedding of the cassandra-dtest repository's orchestration logic:
`upgrade_through_versions_test.py` (rolling-upgrade orchestrator, version
string handling, Git semver comparison), `commitlog_test.py` (commitlog
permission changes and header CRC corruption) and
`pushed_notifications_test.py` (NotificationWaiter).

Python strings are modelled as `List Char`, Python ints as `Int`/`Nat`
(with explicit two's-complement conversions where `struct` formats are
signed), file bytes as `List Nat`, and side-effecting test methods as
explicit state transformers or action traces.
-/

namespace DTest

/-! ### Subprocess / queue model (upgrade_through_versions_test.py)

`multiprocessing.Queue(maxsize)` is modelled by its bound: per the Python
documentation, `Queue()` (maxsize ≤ 0) has no size bound, modelled as
`none`; `Queue(maxsize=n)` with n > 0 is modelled as `some n`. -/

structure QueueSpec where
  maxsize : Option Nat
deriving DecidableEq, Repr

/-- A queue has a finite maximum size. -/
def QueueSpec.bounded (q : QueueSpec) : Prop := q.maxsize.isSome

instance (q : QueueSpec) : Decidable q.bounded := by
  unfold QueueSpec.bounded; infer_instance

/-- The four module-level worker functions of
`upgrade_through_versions_test.py` that can serve as a `Process` target. -/
inductive ProcTarget
  | data_writer
  | data_checker
  | counter_incrementer
  | counter_checker
deriving DecidableEq, Repr

/-- A `multiprocessing.Process` as configured by the orchestrator:
its target function, the `rewrite_probability` argument when one is
passed, and the daemon flag. -/
structure ProcSpec where
  target : ProcTarget
  rewrite_probability : Option Nat
  daemon : Bool
deriving DecidableEq, Repr

/-- Result of the two `_start_continuous_*` methods: the two queues
created and the two processes started (writer-role first, then
verifier-role). -/
structure StartResult where
  to_verify_queue : QueueSpec
  verification_done_queue : QueueSpec
  writer : ProcSpec
  verifier : ProcSpec
deriving DecidableEq, Repr

/-- `TestUpgradeThroughVersions._start_continuous_write_and_verify`:
creates `to_verify_queue = Queue()`, `verification_done_queue =
Queue(maxsize=500)`, starts `Process(target=data_writer, args=(...,25))`
and `Process(target=data_checker)`, both daemons. -/
def start_continuous_write_and_verify : StartResult :=
  { to_verify_queue := { maxsize := none }
    verification_done_queue := { maxsize := some 500 }
    writer := { target := .data_writer, rewrite_probability := some 25, daemon := true }
    verifier := { target := .data_checker, rewrite_probability := none, daemon := true } }

/-- `TestUpgradeThroughVersions._start_continuous_counter_increment_and_verify`:
creates `to_verify_queue = Queue()`, `verification_done_queue =
Queue(maxsize=500)`; the processes it starts are
`Process(target=data_writer, args=(...,25))` (line 778) and
`Process(target=data_checker)` (line 787), both daemons. -/
def start_continuous_counter_increment_and_verify : StartResult :=
  { to_verify_queue := { maxsize := none }
    verification_done_queue := { maxsize := some 500 }
    writer := { target := .data_writer, rewrite_probability := some 25, daemon := true }
    verifier := { target := .data_checker, rewrite_probability := none, daemon := true } }

/-! ### `_check_on_subprocs` / `_terminate_subprocs` -/

/-- A monitored subprocess: its name and whether `is_alive()` holds. -/
structure Subproc where
  name : String
  alive : Bool
deriving DecidableEq, Repr

/-- Observable actions of `_check_on_subprocs` / `_terminate_subprocs`. -/
inductive SupervisorAction
  | kill (name : String)
  | raiseRuntimeError
deriving DecidableEq, Repr

/-- `_terminate_subprocs`: for each subprocess in `self.subprocs` that is
alive, kill it via psutil (the try/except around the kill only swallows
kill errors; a kill is attempted for every alive subprocess). -/
def terminate_subprocs (testSubprocs : List Subproc) : List SupervisorAction :=
  (testSubprocs.filter (fun s => s.alive)).map (fun s => .kill s.name)

/-- `_check_on_subprocs`: computes `is_alive()` for every monitored
subprocess; if all are alive it does nothing, otherwise it calls
`_terminate_subprocs` on the test's subprocess list and raises
`RuntimeError`. -/
def check_on_subprocs (monitored testSubprocs : List Subproc) : List SupervisorAction :=
  if monitored.all (fun s => s.alive) then []
  else terminate_subprocs testSubprocs ++ [.raiseRuntimeError]

/-! ### `_wait_until_queue_condition`

The wall clock is discretised into the loop's iteration ticks: iteration
`k` of the `while time.time() < wait_end_time` loop runs at tick `k`
(each iteration sleeps 0.1 s), and `maxPolls` is the number of ticks that
fall before `wait_end_time`.  The environment is an observation function:
`obs k = none` models `queue.qsize()` raising `NotImplementedError` at
poll `k` (Mac OS X), `obs k = some q` models it returning `q`. -/

inductive WaitOutcome
  | normal
  | runtimeError
deriving DecidableEq, Repr

/-- The polling loop of `_wait_until_queue_condition`, starting at poll
index `i` with `fuel` ticks left before the deadline.  `break` on
`NotImplementedError` or on `opfunc(qsize, required_len)` skips the
`while/else` clause, so the method returns normally; exhausting the time
reaches the `else` clause, which raises `RuntimeError`. -/
def waitPoll (obs : Nat → Option Nat) (opfunc : Nat → Nat → Bool) (required_len : Nat) :
    Nat → Nat → WaitOutcome
  | _, 0 => .runtimeError
  | i, fuel + 1 =>
    match obs i with
    | none => .normal
    | some qsize =>
      if opfunc qsize required_len then .normal
      else waitPoll obs opfunc required_len (i + 1) fuel

/-- `TestUpgradeThroughVersions._wait_until_queue_condition`, with
`maxPolls` the number of polling ticks before `wait_end_time`. -/
def wait_until_queue_condition (obs : Nat → Option Nat) (opfunc : Nat → Nat → Bool)
    (required_len maxPolls : Nat) : WaitOutcome :=
  waitPoll obs opfunc required_len 0 maxPolls

/-! ### The rolling upgrade scenario -/

/-- Cluster-visible steps of `upgrade_scenario(rolling=True)` and
`upgrade_to_version`, in program order. -/
inductive UpgradeEvent
  | sleep
  | drain (node : String)
  | watchLogDrained (node : String)
  | stopNode (node : String)
  | setInstallDir (node : String) (tag : String)
  | setLogLevel (node : String)
  | startNode (node : String)
  | upgradeSSTables (node : String)
  | checkSubprocs
  | setClusterInstallDir (tag : String)
deriving DecidableEq, Repr

/-- `TestUpgradeThroughVersions.upgrade_to_version(tag, partial, nodes)`
(non-LOCAL_MODE path): when `partial` is false the `nodes` argument is
ignored and the whole cluster is used; then three passes over the chosen
nodes: drain/stop each, set each node's install dir to `git:tag`, then
restart each node and run `nodetool('upgradesstables -a')` on it. -/
def upgrade_to_version (tag : String) (partialUpgrade : Bool)
    (nodes clusterNodes : List String) : List UpgradeEvent :=
  let ns := if partialUpgrade then nodes else clusterNodes
  ns.flatMap (fun n => [.drain n, .watchLogDrained n, .stopNode n]) ++
    ns.map (fun n => .setInstallDir n tag) ++
    ns.flatMap (fun n => [.setLogLevel n, .startNode n, .upgradeSSTables n])

/-- The rolling branch of `upgrade_scenario`: for each tag in
`test_versions[1:]`, for each node of the cluster in order: sleep 60 s,
`upgrade_to_version(tag, partial=True, nodes=(node,))`, then
`_check_on_subprocs`; after all nodes, `cluster.set_install_dir`. -/
def rolling_upgrade_trace (testVersions clusterNodes : List String) : List UpgradeEvent :=
  (testVersions.drop 1).flatMap (fun tag =>
    clusterNodes.flatMap (fun n =>
      .sleep :: upgrade_to_version tag true [n] clusterNodes ++ [.checkSubprocs]) ++
    [.setClusterInstallDir tag])

/-! ### NotificationWaiter (pushed_notifications_test.py)

A notification is a driver event dict; only its keyspace entry matters to
`handle_notification`.  `keyspace = none` models a notification whose
keyspace entry is `None`; `some ks` models the string `ks` (`some ""` is
falsy in Python, like `None`). -/

structure Notification where
  change_type : String
  keyspace : Option String
deriving DecidableEq, Repr

/-- The mutable state of a `NotificationWaiter`: the keyspace filter set
at construction, the collected notifications, and the `Event` flag. -/
structure WaiterState where
  keyspace : Option String
  notifications : List Notification
  eventSet : Bool
deriving DecidableEq, Repr

/-- Python truthiness of an optional string (`None` and `''` are falsy). -/
def optStrTruthy : Option String → Bool
  | none => false
  | some s => !(s = "")

/-- `NotificationWaiter.handle_notification`: if
`self.keyspace and notification['keyspace'] and
self.keyspace != notification['keyspace']` it returns with no change;
otherwise it appends the notification and sets the event. -/
def handle_notification (w : WaiterState) (n : Notification) : WaiterState :=
  if optStrTruthy w.keyspace && optStrTruthy n.keyspace && !(w.keyspace == n.keyspace)
  then w
  else { w with notifications := w.notifications ++ [n], eventSet := true }

/-! ### Commitlog permissions (commitlog_test.py) -/

def S_IREAD : Nat := 0o400
def S_IWRITE : Nat := 0o200
def S_IEXEC : Nat := 0o100

/-- The commitlog directory of node1: the permission bits of the
directory itself and of each file inside it. -/
structure CommitlogFS where
  dirPerm : Nat
  filePerms : List (String × Nat)
deriving DecidableEq, Repr

/-- `TestCommitLog._change_commitlog_perms(mod)`: `os.chmod` on the
commitlog path, then `os.chmod` on every file matched by
`glob.glob(path + '/*')`. -/
def change_commitlog_perms (mod : Nat) (fs : CommitlogFS) : CommitlogFS :=
  { dirPerm := mod
    filePerms := fs.filePerms.map (fun p => (p.1, mod)) }

/-- Steps of `TestCommitLog` methods that matter for the disk-failure
scenario, in program order. -/
inductive CommitlogAction
  | insertRow
  | assertQueryOne
  | chmodCommitlogs (mod : Nat)
  | stressWrite
  | superTearDown
deriving DecidableEq, Repr

/-- `TestCommitLog._provoke_commitlog_failure`: inserts a row, asserts it
reads back, sets the commitlog permissions to 0, then drives a large
stress write. -/
def provoke_commitlog_failure : List CommitlogAction :=
  [.insertRow, .assertQueryOne, .chmodCommitlogs 0, .stressWrite]

/-- `TestCommitLog.tearDown`: restores
`stat.S_IWRITE | stat.S_IREAD | stat.S_IEXEC` on the commitlog directory
and files, then calls the superclass tearDown. -/
def commitlog_tearDown : List CommitlogAction :=
  [.chmodCommitlogs (S_IWRITE ||| S_IREAD ||| S_IEXEC), .superTearDown]

/-! ### Commitlog header CRC corruption (`test_bad_crc`)

A commitlog file is a `List Nat` of bytes.  `struct.unpack('>i', ...)` /
`struct.unpack('>h', ...)` are big-endian signed 32/16-bit decodes;
Python's `& 0xFFFF` on an arbitrary int is `mod 2^16` (infinite
two's-complement semantics). -/

/-- `f.seek(pos); f.read(len)` on a byte list. -/
def readBytes (file : List Nat) (pos len : Nat) : List Nat :=
  (file.drop pos).take len

/-- Big-endian byte concatenation. -/
def beBytesToNat (bs : List Nat) : Nat :=
  bs.foldl (fun a b => 256 * a + b) 0

/-- `struct.unpack('>i', bs)[0]`: signed 32-bit big-endian. -/
def unpackBEInt32 (bs : List Nat) : Int :=
  let u := beBytesToNat bs
  if u < 2 ^ 31 then (u : Int) else (u : Int) - 2 ^ 32

/-- `struct.unpack('>h', bs)[0]`: signed 16-bit big-endian. -/
def unpackBEInt16 (bs : List Nat) : Int :=
  let u := beBytesToNat bs
  if u < 2 ^ 15 then (u : Int) else (u : Int) - 2 ^ 16

/-- `struct.pack('>i', x)`: 4-byte big-endian two's-complement encoding. -/
def packBEInt32 (x : Int) : List Nat :=
  let u := (x % (2 ^ 32)).toNat
  [u / 2 ^ 24 % 256, u / 2 ^ 16 % 256, u / 2 ^ 8 % 256, u % 256]

/-- Python `v & 0xFFFF` on an arbitrary int (infinite two's complement):
the low 16 bits, i.e. `v mod 2^16`. -/
def pyAnd0xFFFF (v : Int) : Int := v % (2 ^ 16)

/-- The CRC-location computation of `test_bad_crc` for one commitlog
file: read the version as `'>i'` at offset 0; `crc_pos = 12`; if
`version >= 5`, read `psize` as `'>h'` at offset 12 masked with
`0xFFFF` and add `2 + psize`. -/
def bad_crc_pos (file : List Nat) : Nat :=
  let version := unpackBEInt32 (readBytes file 0 4)
  if version ≥ 5 then
    let psize := pyAnd0xFFFF (unpackBEInt16 (readBytes file 12 2))
    (12 + (2 + psize)).toNat
  else 12

/-- The rewrite step of `test_bad_crc`: `open(..., 'w')` truncates the
file to empty, `f.seek(crc_pos)` past the end makes the skipped bytes
zero, and `f.write(struct.pack('>i', 123456))` appends the packed
value. -/
def bad_crc_rewrite (crc_pos : Nat) : List Nat :=
  List.replicate crc_pos 0 ++ packBEInt32 123456

/-! ### Version strings, LooseVersion and GitSemVer
(upgrade_through_versions_test.py) -/

/-- Decimal rendering of a natural number, as Python's
`'{}'.format(n)` renders a non-negative int. -/
def natDecimal (n : Nat) : List Char :=
  if _h : n < 10 then [Nat.digitChar n]
  else natDecimal (n / 10) ++ [Nat.digitChar (n % 10)]
termination_by n
decreasing_by exact Nat.div_lt_self (by omega) (by omega)

/-- `TRUNK_VER = (3, 2)`. -/
def TRUNK_VER : Nat × Nat := (3, 2)

/-- `make_ver_str`: `(1,2) ↦ '1.2'`. -/
def make_ver_str (t : Nat × Nat) : List Char :=
  natDecimal t.1 ++ '.' :: natDecimal t.2

/-- `make_branch_str`: `'trunk'` for the trunk tuple, otherwise
`'cassandra-{}.{}'`. -/
def make_branch_str (t : Nat × Nat) : List Char :=
  if t = TRUNK_VER then "trunk".data
  else "cassandra-".data ++ natDecimal t.1 ++ '.' :: natDecimal t.2

/-- Python `str.split(sep)` for a single-character separator: splits at
every occurrence, keeping empty chunks. -/
def splitOnChar (sep : Char) : List Char → List (List Char)
  | [] => [[]]
  | c :: rest =>
    match splitOnChar sep rest with
    | [] => [[]]
    | h :: t => if c = sep then [] :: h :: t else (c :: h) :: t

/-- One component of a parsed `distutils` `LooseVersion`: a Python int
(from a digit run) or a string chunk. -/
inductive LVComp
  | num (n : Nat)
  | str (s : List Char)
deriving DecidableEq, Repr

/-- Run kinds of `LooseVersion.component_re = (\d+ | [a-z]+ | \.)`:
digit runs and lowercase runs are matches, `'.'` is a dropped match, and
maximal runs of any other characters survive `re.split` as unmatched
chunks. -/
inductive LVRunKind
  | dig
  | low
  | oth
deriving DecidableEq, Repr

def lvKindOf (c : Char) : Option LVRunKind :=
  if c.isDigit then some .dig
  else if 'a' ≤ c && c ≤ 'z' then some .low
  else if c = '.' then none
  else some .oth

/-- `int()` of a digit run. -/
def decimalValue (ds : List Char) : Nat :=
  ds.foldl (fun a c => 10 * a + (c.toNat - 48)) 0

def lvFlushRun : LVRunKind → List Char → LVComp
  | .dig, run => .num (decimalValue run)
  | .low, run => .str run
  | .oth, run => .str run

/-- Maximal-run tokenizer equivalent to
`[x for x in component_re.split(vstring) if x and x != '.']` with digit
chunks converted by `int()`; `acc` is the current unfinished run. -/
def lvTokAux (acc : Option (LVRunKind × List Char)) : List Char → List LVComp
  | [] =>
    match acc with
    | none => []
    | some (k, run) => [lvFlushRun k run]
  | c :: rest =>
    match lvKindOf c, acc with
    | none, none => lvTokAux none rest
    | none, some (k, run) => lvFlushRun k run :: lvTokAux none rest
    | some kc, none => lvTokAux (some (kc, [c])) rest
    | some kc, some (k, run) =>
      if kc = k then lvTokAux (some (k, run ++ [c])) rest
      else lvFlushRun k run :: lvTokAux (some (kc, [c])) rest

def lvComponents (s : List Char) : List LVComp := lvTokAux none s

/-- `distutils.version.LooseVersion`: keeps the original string and its
parsed component list. -/
structure LooseVersion where
  vstring : List Char
  version : List LVComp
deriving DecidableEq, Repr

/-- `LooseVersion(vstring)` (its `parse`). -/
def LooseVersion.parse (s : List Char) : LooseVersion :=
  { vstring := s, version := lvComponents s }

/-- `sanitize_version`: strings containing `'-'` keep only the part
after the first dash, `'trunk'` maps to the trunk version string, and
anything else is parsed as-is. -/
def sanitize_version (version : List Char) : LooseVersion :=
  if '-' ∈ version then LooseVersion.parse ((splitOnChar '-' version).getD 1 [])
  else if version = "trunk".data then LooseVersion.parse (make_ver_str TRUNK_VER)
  else LooseVersion.parse version

/-- Python 2 `cmp` on characters (byte values). -/
def pyCharCmp (a b : Char) : Int :=
  if a.toNat < b.toNat then -1 else if b.toNat < a.toNat then 1 else 0

/-- Python 2 `cmp` on strings: lexicographic with length tiebreak. -/
def pyStrCmp : List Char → List Char → Int
  | [], [] => 0
  | [], _ :: _ => -1
  | _ :: _, [] => 1
  | a :: xs, b :: ys =>
    let c := pyCharCmp a b
    if c = 0 then pyStrCmp xs ys else c

/-- Python 2 `cmp` on LooseVersion components: ints compare numerically,
strings lexicographically, and an int is below any string (Python 2
orders distinct types by type name, `'int' < 'str'`). -/
def lvCompCmp : LVComp → LVComp → Int
  | .num a, .num b => if a < b then -1 else if b < a then 1 else 0
  | .num _, .str _ => -1
  | .str _, .num _ => 1
  | .str a, .str b => pyStrCmp a b

/-- Python 2 `cmp` on component lists. -/
def pyListCmp : List LVComp → List LVComp → Int
  | [], [] => 0
  | [], _ :: _ => -1
  | _ :: _, [] => 1
  | a :: xs, b :: ys =>
    let c := lvCompCmp a b
    if c = 0 then pyListCmp xs ys else c

/-- `LooseVersion.__cmp__`: `cmp(self.version, other.version)`. -/
def LooseVersion.cmp (a b : LooseVersion) : Int := pyListCmp a.version b.version

/-- `pat` is a leading segment of the second list. -/
def startsWithL : List Char → List Char → Bool
  | [], _ => true
  | _ :: _, [] => false
  | a :: xs, b :: ys => a = b && startsWithL xs ys

/-- Python substring containment `pat in s`. -/
def occursIn (pat : List Char) : List Char → Bool
  | [] => pat.isEmpty
  | c :: rest => startsWithL pat (c :: rest) || occursIn pat rest

/-- `GitSemVer`: a git ref wrapped with a LooseVersion. -/
structure GitSemVer where
  git_ref : List Char
  semver : LooseVersion
deriving DecidableEq, Repr

/-- `GitSemVer.__init__(git_ref, semver_str)`: parses `semver_str`,
except that `'trunk'` is replaced by the trunk version string. -/
def GitSemVer.init (ref semver_str : List Char) : GitSemVer :=
  { git_ref := ref
    semver :=
      if semver_str = "trunk".data then LooseVersion.parse (make_ver_str TRUNK_VER)
      else LooseVersion.parse semver_str }

/-- `GitSemVer.__cmp__`: when either side has at most three parsed
components, a version whose string plus `'-'` occurs in the other's
string is ranked above it; equal strings tie; otherwise (and when both
have more than three components) fall back to `cmp` on the
LooseVersions. -/
def GitSemVer.cmp (x y : GitSemVer) : Int :=
  if x.semver.version.length ≤ 3 ∨ y.semver.version.length ≤ 3 then
    if occursIn (x.semver.vstring ++ ['-']) y.semver.vstring then 1
    else if occursIn (y.semver.vstring ++ ['-']) x.semver.vstring then -1
    else if y.semver.vstring = x.semver.vstring then 0
    else LooseVersion.cmp x.semver y.semver
  else LooseVersion.cmp x.semver y.semver

/-! ## Theorems -/

/-- C1: `_start_continuous_counter_increment_and_verify` was evidently
meant to start `counter_incrementer` and `counter_checker` subprocesses
(its docstring says so and those two functions exist for exactly this),
but the code passes `data_writer` and `data_checker` as the `Process`
targets, so neither counter function is ever started. -/
theorem counter_increment_starts_data_writer_targets :
    start_continuous_counter_increment_and_verify.writer.target = ProcTarget.data_writer ∧
    start_continuous_counter_increment_and_verify.verifier.target = ProcTarget.data_checker ∧
    start_continuous_counter_increment_and_verify.writer.target ≠ ProcTarget.counter_incrementer ∧
    start_continuous_counter_increment_and_verify.verifier.target ≠ ProcTarget.counter_checker := by
  decide

/-- C2 counterexample: the to-verify queue created by
`_start_continuous_write_and_verify` (and by the counter variant) is
`Queue()`, which has no finite maximum size, so it is not true that both
queues of every writer/verifier pair are bounded. -/
theorem to_verify_queue_unbounded :
    ¬ start_continuous_write_and_verify.to_verify_queue.bounded ∧
    ¬ start_continuous_counter_increment_and_verify.to_verify_queue.bounded := by
  decide

/-- C2 (amended): for each writer/verifier pair started, the
verification-done queue is bounded with maximum size 500, while the
to-verify queue is created without any size bound. -/
theorem verification_done_queue_bounded :
    start_continuous_write_and_verify.verification_done_queue.maxsize = some 500 ∧
    start_continuous_counter_increment_and_verify.verification_done_queue.maxsize = some 500 ∧
    start_continuous_write_and_verify.to_verify_queue.maxsize = none ∧
    start_continuous_counter_increment_and_verify.to_verify_queue.maxsize = none := by
  decide

/-- C5: `_check_on_subprocs` performs no action when every monitored
subprocess is alive; otherwise it kills exactly the still-alive
subprocesses of the test's `self.subprocs` list and then raises
`RuntimeError` (the raise comes after all the kills). -/
theorem check_on_subprocs_spec (monitored testSubprocs : List Subproc) :
    (monitored.all (fun s => s.alive) = true →
      check_on_subprocs monitored testSubprocs = []) ∧
    (monitored.all (fun s => s.alive) = false →
      check_on_subprocs monitored testSubprocs =
        (testSubprocs.filter (fun s => s.alive)).map (fun s => SupervisorAction.kill s.name)
          ++ [SupervisorAction.raiseRuntimeError] ∧
      ∀ s ∈ testSubprocs, s.alive = true →
        SupervisorAction.kill s.name ∈ check_on_subprocs monitored testSubprocs) := by
  constructor
  · intro h
    simp [check_on_subprocs, h]
  · intro h
    constructor
    · simp [check_on_subprocs, terminate_subprocs, h]
    · intro s hs ha
      simp only [check_on_subprocs, h, Bool.false_eq_true, if_false, terminate_subprocs]
      exact List.mem_append_left _
        (List.mem_map.2 ⟨s, List.mem_filter.2 ⟨hs, ha⟩, rfl⟩)

/-- Witness for C5 at concrete inputs: all-alive monitored list leaves
the trace empty; a dead monitored subprocess makes the method kill the
alive test subprocess and then raise. -/
theorem check_on_subprocs_spec_witness :
    check_on_subprocs [⟨"writer", true⟩] [⟨"writer", true⟩] = [] ∧
    check_on_subprocs [⟨"writer", false⟩] [⟨"writer", false⟩, ⟨"verifier", true⟩] =
      [SupervisorAction.kill "verifier", SupervisorAction.raiseRuntimeError] := by
  constructor
  · exact (check_on_subprocs_spec [⟨"writer", true⟩] [⟨"writer", true⟩]).1 (by decide)
  · exact (((check_on_subprocs_spec [⟨"writer", false⟩]
      [⟨"writer", false⟩, ⟨"verifier", true⟩]).2 (by decide)).1).trans (by decide)

/-- C6: `_change_commitlog_perms(mod)` sets the commitlog directory's
permission bits and those of every file inside it to `mod` (keeping the
files); `_provoke_commitlog_failure` sets them to 0 before driving the
stress writes; and `tearDown` always starts by restoring
`S_IWRITE | S_IREAD | S_IEXEC`, which has the read, write and execute
bits set. -/
theorem change_commitlog_perms_spec (mod : Nat) (fs : CommitlogFS) :
    (change_commitlog_perms mod fs).dirPerm = mod ∧
    (∀ p ∈ (change_commitlog_perms mod fs).filePerms, p.2 = mod) ∧
    (∀ p ∈ fs.filePerms, (p.1, mod) ∈ (change_commitlog_perms mod fs).filePerms) ∧
    (∃ i j : Nat, i < j ∧ provoke_commitlog_failure[i]? = some (CommitlogAction.chmodCommitlogs 0) ∧
      provoke_commitlog_failure[j]? = some CommitlogAction.stressWrite) ∧
    commitlog_tearDown.head? =
      some (CommitlogAction.chmodCommitlogs (S_IWRITE ||| S_IREAD ||| S_IEXEC)) ∧
    ((S_IWRITE ||| S_IREAD ||| S_IEXEC) &&& S_IREAD = S_IREAD ∧
      (S_IWRITE ||| S_IREAD ||| S_IEXEC) &&& S_IWRITE = S_IWRITE ∧
      (S_IWRITE ||| S_IREAD ||| S_IEXEC) &&& S_IEXEC = S_IEXEC) := by
  refine ⟨rfl, ?_, ?_, ⟨2, 3, by omega, rfl, rfl⟩, rfl, by decide⟩
  · intro p hp
    obtain ⟨q, _, rfl⟩ := List.mem_map.1 hp
    rfl
  · intro p hp
    exact List.mem_map.2 ⟨p, hp, rfl⟩

/-- Witness for C6 at a concrete filesystem: chmod 0 zeroes the
directory permission and the file's permission. -/
theorem change_commitlog_perms_witness :
    (change_commitlog_perms 0 ⟨448, [("commitlog1", 448)]⟩).dirPerm = 0 ∧
    ("commitlog1", 0) ∈ (change_commitlog_perms 0 ⟨448, [("commitlog1", 448)]⟩).filePerms :=
  ⟨(change_commitlog_perms_spec 0 ⟨448, [("commitlog1", 448)]⟩).1,
    (change_commitlog_perms_spec 0 ⟨448, [("commitlog1", 448)]⟩).2.2.1
      ("commitlog1", 448) (by decide)⟩

/-- Helper: every digit of `Nat.digitChar` below 10 is a digit char. -/
theorem digitChar_isDigit : ∀ d, d < 10 → (Nat.digitChar d).isDigit = true := by
  decide

/-- Helper: decimal renderings consist of digit characters. -/
theorem natDecimal_digits (n : Nat) : ∀ c ∈ natDecimal n, c.isDigit = true := by
  induction n using Nat.strong_induction_on with
  | _ n ih =>
    rw [natDecimal.eq_def]
    split
    · rename_i h
      intro c hc
      rw [List.mem_singleton] at hc
      subst hc
      exact digitChar_isDigit n h
    · rename_i h
      intro c hc
      rcases List.mem_append.1 hc with h1 | h2
      · exact ih (n / 10) (Nat.div_lt_self (by omega) (by omega)) c h1
      · rw [List.mem_singleton] at h2
        subst h2
        exact digitChar_isDigit _ (Nat.mod_lt _ (by omega))

/-- Helper: a version string `M.m` contains no dash. -/
theorem dash_not_mem_make_ver_str (t : Nat × Nat) : '-' ∉ make_ver_str t := by
  intro hmem
  rw [make_ver_str] at hmem
  rcases List.mem_append.1 hmem with h1 | h2
  · exact absurd (natDecimal_digits t.1 '-' h1) (by decide)
  · rcases List.mem_cons.1 h2 with h3 | h4
    · exact absurd h3 (by decide)
    · exact absurd (natDecimal_digits t.2 '-' h4) (by decide)

/-- Helper: `str.split` never yields an empty chunk list. -/
theorem splitOnChar_ne_nil (sep : Char) : ∀ l, splitOnChar sep l ≠ [] := by
  intro l
  cases l with
  | nil => simp [splitOnChar]
  | cons c rest =>
    cases hrec : splitOnChar sep rest with
    | nil => simp [splitOnChar, hrec]
    | cons h t =>
      simp only [splitOnChar, hrec]
      split <;> simp

/-- Helper: splitting a separator-free string yields the string alone. -/
theorem splitOnChar_not_mem (sep : Char) :
    ∀ l, sep ∉ l → splitOnChar sep l = [l] := by
  intro l
  induction l with
  | nil => intro _; rfl
  | cons c rest ih =>
    intro hmem
    have hc : c ≠ sep := by
      intro h
      exact hmem (h ▸ List.mem_cons_self _ _)
    have hrest : sep ∉ rest := fun h => hmem (List.mem_cons_of_mem _ h)
    simp [splitOnChar, ih hrest, hc]

/-- Helper: splitting at the first separator detaches the prefix. -/
theorem splitOnChar_append (sep : Char) :
    ∀ a b, sep ∉ a → splitOnChar sep (a ++ sep :: b) = a :: splitOnChar sep b := by
  intro a
  induction a with
  | nil =>
    intro b _
    cases hrec : splitOnChar sep b with
    | nil => exact absurd hrec (splitOnChar_ne_nil sep b)
    | cons h t => simp [splitOnChar, hrec]
  | cons c a2 ih =>
    intro b hmem
    have hc : c ≠ sep := by
      intro h
      exact hmem (h ▸ List.mem_cons_self _ _)
    have ha2 : sep ∉ a2 := fun h => hmem (List.mem_cons_of_mem _ h)
    simp [splitOnChar, ih b ha2, hc]

/-- C9: sanitizing the branch name of any version tuple recovers exactly
the LooseVersion of its version string: the trunk tuple goes through
`'trunk'` and every other tuple through `'cassandra-M.m'`. -/
theorem sanitize_version_roundtrip (t : Nat × Nat) :
    sanitize_version (make_branch_str t) = LooseVersion.parse (make_ver_str t) := by
  by_cases h : t = TRUNK_VER
  · subst h
    rw [make_branch_str, if_pos rfl, sanitize_version, if_neg (by decide), if_pos rfl]
  · rw [make_branch_str, if_neg h]
    have hform : "cassandra-".data ++ natDecimal t.1 ++ '.' :: natDecimal t.2 =
        "cassandra".data ++ '-' :: make_ver_str t := by
      rw [show "cassandra-".data = "cassandra".data ++ ['-'] by decide, make_ver_str]
      simp
    rw [hform, sanitize_version,
      if_pos (List.mem_append_right _ (List.mem_cons_self _ _)),
      splitOnChar_append '-' _ _ (by decide),
      splitOnChar_not_mem '-' _ (dash_not_mem_make_ver_str t)]
    rfl

/-- Helper: a list starts with itself before any continuation. -/
theorem startsWithL_append_self : ∀ (a t : List Char), startsWithL a (a ++ t) = true := by
  intro a
  induction a with
  | nil => intro t; rfl
  | cons c a2 ih => intro t; simp [startsWithL, ih t]

/-- Helper: a list occurs in itself followed by anything. -/
theorem occursIn_append_self : ∀ (a t : List Char), occursIn a (a ++ t) = true := by
  intro a t
  cases a with
  | nil =>
    cases t with
    | nil => rfl
    | cons c r => simp [occursIn, startsWithL]
  | cons c a2 =>
    simp [occursIn, startsWithL, startsWithL_append_self]

/-- Helper: a leading segment is no longer than the whole. -/
theorem startsWithL_length : ∀ (a b : List Char), startsWithL a b = true →
    a.length ≤ b.length := by
  intro a
  induction a with
  | nil => intro b _; simp
  | cons c a2 ih =>
    intro b h
    cases b with
    | nil => exact absurd h (by simp [startsWithL])
    | cons d b2 =>
      simp only [startsWithL, Bool.and_eq_true] at h
      simpa using Nat.succ_le_succ (ih b2 h.2)

/-- Helper: a substring is no longer than the string containing it. -/
theorem occursIn_length : ∀ (b a : List Char), occursIn a b = true →
    a.length ≤ b.length := by
  intro b
  induction b with
  | nil =>
    intro a h
    simp only [occursIn, List.isEmpty_iff] at h
    simp [h]
  | cons c b2 ih =>
    intro a h
    simp only [occursIn, Bool.or_eq_true] at h
    rcases h with h1 | h2
    · exact startsWithL_length a _ h1
    · exact le_trans (ih a h2) (by simp)

/-- C10: when `a`'s semver string parses to at most three components and
`b`'s semver string is `a`'s string, a dash, and a non-empty suffix,
`GitSemVer.__cmp__` ranks the plain release above the dash-suffixed tag
from both sides: `a.cmp b = 1` and `b.cmp a = -1`. -/
theorem gitsemver_release_above_dashed_tag (a b : GitSemVer) (suf : List Char)
    (hlen : a.semver.version.length ≤ 3) (_hsuf : suf ≠ [])
    (hb : b.semver.vstring = a.semver.vstring ++ '-' :: suf) :
    GitSemVer.cmp a b = 1 ∧ GitSemVer.cmp b a = -1 := by
  have hocc : occursIn (a.semver.vstring ++ ['-']) b.semver.vstring = true := by
    rw [hb, show a.semver.vstring ++ '-' :: suf = (a.semver.vstring ++ ['-']) ++ suf by simp]
    exact occursIn_append_self _ _
  have hnocc : occursIn (b.semver.vstring ++ ['-']) a.semver.vstring = false := by
    cases hoc : occursIn (b.semver.vstring ++ ['-']) a.semver.vstring with
    | false => rfl
    | true =>
      exfalso
      have hle := occursIn_length _ _ hoc
      rw [List.length_append, hb, List.length_append] at hle
      simp at hle
      omega
  constructor
  · unfold GitSemVer.cmp
    rw [if_pos (Or.inl hlen), if_pos hocc]
  · unfold GitSemVer.cmp
    rw [if_pos (Or.inr hlen), if_neg (by rw [hnocc]; simp), if_pos hocc]

/-- Witness for C10: `3.0.0` against `3.0.0-rc1` (both built through
`GitSemVer.__init__`): the release compares above the tag both ways. -/
theorem gitsemver_release_above_dashed_tag_witness :
    GitSemVer.cmp (GitSemVer.init "cassandra-3.0.0".data "3.0.0".data)
        (GitSemVer.init "3.0.0-rc1".data "3.0.0-rc1".data) = 1 ∧
    GitSemVer.cmp (GitSemVer.init "3.0.0-rc1".data "3.0.0-rc1".data)
        (GitSemVer.init "cassandra-3.0.0".data "3.0.0".data) = -1 :=
  gitsemver_release_above_dashed_tag
    (GitSemVer.init "cassandra-3.0.0".data "3.0.0".data)
    (GitSemVer.init "3.0.0-rc1".data "3.0.0-rc1".data)
    "rc1".data (by decide) (by decide) (by decide)

/-- C7: on a commitlog file of well-formed bytes, the CRC offset chosen
by `test_bad_crc` is 12 when the big-endian 32-bit version at offset 0
is below 5, and `14 + psize` otherwise, where `psize` is the 16-bit
field at offset 12 read as unsigned (the signed `'>h'` read masked with
`0xFFFF`); and after the rewrite, reading 4 bytes back from that offset
decodes to 123456. -/
theorem bad_crc_spec (file : List Nat) (hwf : ∀ b ∈ file, b < 256)
    (hlen : 14 ≤ file.length) :
    (bad_crc_pos file =
      if unpackBEInt32 (readBytes file 0 4) < 5 then 12
      else 14 + beBytesToNat (readBytes file 12 2)) ∧
    unpackBEInt32 (readBytes (bad_crc_rewrite (bad_crc_pos file)) (bad_crc_pos file) 4) =
      123456 := by
  have h2 : (readBytes file 12 2).length = 2 := by
    simp only [readBytes, List.length_take, List.length_drop]
    omega
  obtain ⟨b0, b1, hb⟩ := List.length_eq_two.1 h2
  have hsub : ∀ x ∈ readBytes file 12 2, x ∈ file := by
    intro x hx
    exact List.drop_subset 12 file (List.take_subset 2 _ hx)
  have hb0 : b0 < 256 := hwf b0 (hsub b0 (by rw [hb]; exact List.mem_cons_self _ _))
  have hb1 : b1 < 256 := hwf b1 (hsub b1 (by rw [hb]; simp))
  have hu16 : pyAnd0xFFFF (unpackBEInt16 (readBytes file 12 2)) =
      ((beBytesToNat (readBytes file 12 2) : Nat) : Int) := by
    rw [hb]
    simp only [unpackBEInt16, beBytesToNat, List.foldl_cons, List.foldl_nil, pyAnd0xFFFF,
      show (2 : Int) ^ 16 = 65536 by norm_num, show (2 : Nat) ^ 15 = 32768 by norm_num]
    split <;> (push_cast; omega)
  have hpos : bad_crc_pos file =
      if unpackBEInt32 (readBytes file 0 4) ≥ 5 then
        (12 + (2 + pyAnd0xFFFF (unpackBEInt16 (readBytes file 12 2)))).toNat
      else 12 := rfl
  have hpart1 : bad_crc_pos file =
      if unpackBEInt32 (readBytes file 0 4) < 5 then 12
      else 14 + beBytesToNat (readBytes file 12 2) := by
    by_cases hv : unpackBEInt32 (readBytes file 0 4) ≥ 5
    · rw [hpos, if_pos hv, if_neg (by omega), hu16]
      omega
    · rw [hpos, if_neg hv, if_pos (by omega)]
  refine ⟨hpart1, ?_⟩
  have hdrop : (bad_crc_rewrite (bad_crc_pos file)).drop (bad_crc_pos file) =
      packBEInt32 123456 := by
    have h := List.drop_left (List.replicate (bad_crc_pos file) (0 : Nat)) (packBEInt32 123456)
    rw [List.length_replicate] at h
    exact h
  have h4 : readBytes (bad_crc_rewrite (bad_crc_pos file)) (bad_crc_pos file) 4 =
      packBEInt32 123456 := by
    show ((bad_crc_rewrite (bad_crc_pos file)).drop (bad_crc_pos file)).take 4 = _
    rw [hdrop]
    decide
  rw [h4]
  decide

/-- Witness for C7 on a concrete 14-byte commitlog file with version 4:
the CRC offset is 12 and the rewritten file reads back 123456 there. -/
theorem bad_crc_spec_witness :
    (bad_crc_pos [0, 0, 0, 4, 0, 0, 0, 0, 0, 0, 0, 0, 0, 0] =
      if unpackBEInt32 (readBytes [0, 0, 0, 4, 0, 0, 0, 0, 0, 0, 0, 0, 0, 0] 0 4) < 5 then 12
      else 14 + beBytesToNat (readBytes [0, 0, 0, 4, 0, 0, 0, 0, 0, 0, 0, 0, 0, 0] 12 2)) ∧
    unpackBEInt32
      (readBytes
        (bad_crc_rewrite (bad_crc_pos [0, 0, 0, 4, 0, 0, 0, 0, 0, 0, 0, 0, 0, 0]))
        (bad_crc_pos [0, 0, 0, 4, 0, 0, 0, 0, 0, 0, 0, 0, 0, 0]) 4) = 123456 :=
  bad_crc_spec [0, 0, 0, 4, 0, 0, 0, 0, 0, 0, 0, 0, 0, 0] (by decide) (by decide)

/-- C8: `handle_notification` appends the notification and sets the
event, except when the waiter has a non-empty keyspace filter, the
notification carries a non-empty keyspace, and the two differ, in which
case the state is unchanged. -/
theorem handle_notification_spec (w : WaiterState) (n : Notification) :
    (∀ f k, w.keyspace = some f → f ≠ "" → n.keyspace = some k → k ≠ "" → f ≠ k →
      handle_notification w n = w) ∧
    ((w.keyspace = none ∨ w.keyspace = some "" ∨ n.keyspace = none ∨ n.keyspace = some "" ∨
        w.keyspace = n.keyspace) →
      handle_notification w n =
        { w with notifications := w.notifications ++ [n], eventSet := true }) := by
  constructor
  · intro f k hw hf hn hk hfk
    simp [handle_notification, optStrTruthy, hw, hn, hf, hk, hfk]
  · intro hcase
    rcases hcase with h | h | h | h | h <;>
      simp [handle_notification, optStrTruthy, h]

/-- Helper: the polling loop started at index `i` with `fuel` ticks left
returns normally exactly when some reachable poll hits an unobservable
queue size or a satisfied condition. -/
theorem waitPoll_normal_iff (obs : Nat → Option Nat) (opfunc : Nat → Nat → Bool)
    (required_len : Nat) (fuel : Nat) :
    ∀ i, waitPoll obs opfunc required_len i fuel = .normal ↔
      ∃ k, k < fuel ∧ (obs (i + k) = none ∨
        ∃ q, obs (i + k) = some q ∧ opfunc q required_len = true) := by
  induction fuel with
  | zero =>
    intro i
    constructor
    · intro h
      exact absurd h (by simp [waitPoll])
    · rintro ⟨k, hk, -⟩
      omega
  | succ m ih =>
    intro i
    cases hobs : obs i with
    | none =>
      simp only [waitPoll, hobs]
      exact iff_of_true trivial ⟨0, by omega, Or.inl (by simpa using hobs)⟩
    | some q =>
      simp only [waitPoll, hobs]
      by_cases hop : opfunc q required_len = true
      · rw [if_pos hop]
        exact iff_of_true rfl ⟨0, by omega, Or.inr ⟨q, by simpa using hobs, hop⟩⟩
      · rw [if_neg hop, ih (i + 1)]
        constructor
        · rintro ⟨k, hk, hgood⟩
          exact ⟨k + 1, by omega, by rw [show i + (k + 1) = i + 1 + k by omega]; exact hgood⟩
        · rintro ⟨k, hk, hgood⟩
          cases k with
          | zero =>
            exfalso
            rcases hgood with hnone | ⟨q2, hq2, hopq2⟩
            · rw [Nat.add_zero, hobs] at hnone
              exact Option.noConfusion hnone
            · rw [Nat.add_zero, hobs] at hq2
              exact hop (Option.some.inj hq2 ▸ hopq2)
          | succ k2 =>
            exact ⟨k2, by omega, by rw [show i + 1 + k2 = i + (k2 + 1) by omega]; exact hgood⟩

/-- C3: `_wait_until_queue_condition` returns normally exactly when, at
some poll tick before `max_wait_s` has elapsed, either the queue size is
unobservable (`qsize` raises `NotImplementedError`) or
`opfunc(qsize, required_len)` holds; otherwise — the condition never
holding within the deadline — it raises `RuntimeError`, and in either
case it stops polling once the deadline passes (the loop performs at
most `maxPolls` polls).  Time is discretised into the loop's 0.1 s
iteration ticks; `maxPolls` counts the ticks before `wait_end_time`. -/
theorem wait_until_queue_condition_spec (obs : Nat → Option Nat)
    (opfunc : Nat → Nat → Bool) (required_len maxPolls : Nat) :
    (wait_until_queue_condition obs opfunc required_len maxPolls = .normal ↔
      ∃ k, k < maxPolls ∧ (obs k = none ∨
        ∃ q, obs k = some q ∧ opfunc q required_len = true)) ∧
    (wait_until_queue_condition obs opfunc required_len maxPolls = .runtimeError ↔
      ¬ ∃ k, k < maxPolls ∧ (obs k = none ∨
        ∃ q, obs k = some q ∧ opfunc q required_len = true)) := by
  have h : wait_until_queue_condition obs opfunc required_len maxPolls = .normal ↔
      ∃ k, k < maxPolls ∧ (obs k = none ∨
        ∃ q, obs k = some q ∧ opfunc q required_len = true) := by
    simpa using waitPoll_normal_iff obs opfunc required_len maxPolls 0
  refine ⟨h, ?_, ?_⟩
  · intro hr hex
    have hn := h.mpr hex
    rw [hr] at hn
    exact WaitOutcome.noConfusion hn
  · intro hnex
    cases hout : wait_until_queue_condition obs opfunc required_len maxPolls with
    | normal => exact absurd (h.mp hout) hnex
    | runtimeError => rfl

/-- C4: in the rolling upgrade scenario, for every version after the
first, the nodes are upgraded strictly one at a time in node order —
sleep, drain, wait for DRAINED, stop, set the new version's install
dir, reset the log level, restart, `upgradesstables -a`, subprocess
check — and the whole cluster (plus the cluster-level install dir
switch) finishes a version before any node starts the next one. -/
theorem rolling_upgrade_trace_spec (testVersions clusterNodes : List String) :
    rolling_upgrade_trace testVersions clusterNodes =
      (testVersions.drop 1).flatMap (fun tag =>
        clusterNodes.flatMap (fun n =>
          [.sleep, .drain n, .watchLogDrained n, .stopNode n, .setInstallDir n tag,
            .setLogLevel n, .startNode n, .upgradeSSTables n, .checkSubprocs]) ++
        [.setClusterInstallDir tag]) := by
  rfl

/-- Witness for C8 at concrete inputs: a schema notification for a
different keyspace is dropped; one for the filtered keyspace is
collected and sets the event. -/
theorem handle_notification_spec_witness :
    handle_notification ⟨some "ks", [], false⟩ ⟨"SCHEMA_CHANGE", some "other"⟩ =
      ⟨some "ks", [], false⟩ ∧
    handle_notification ⟨some "ks", [], false⟩ ⟨"SCHEMA_CHANGE", some "ks"⟩ =
      ⟨some "ks", [⟨"SCHEMA_CHANGE", some "ks"⟩], true⟩ := by
  constructor
  · exact (handle_notification_spec ⟨some "ks", [], false⟩ ⟨"SCHEMA_CHANGE", some "other"⟩).1
      "ks" "other" rfl (by decide) rfl (by decide) (by decide)
  · exact ((handle_notification_spec ⟨some "ks", [], false⟩
      ⟨"SCHEMA_CHANGE", some "ks"⟩).2 (Or.inr (Or.inr (Or.inr (Or.inr rfl))))).trans (by decide)

end DTest
